import Mathlib

/-!
# Verification of the THPT-2025 exam-results crawler core

Shallow embedding of the crawler's identifier-space generator
(`src/registration_number_generator.py`), skip ledger
(`src/crawler_skip_manager.py`) and the two crawl orchestrators
(`main.py`, `main_enhanced.py`).

Modelling conventions:
* Python `str` is modelled as `List Char`.
* Python `int` values flowing through the ledger are modelled as `Int`
  (counters, which only ever hold non-negative values, as `Nat`).
* Python dicts are modelled as insertion-ordered association lists
  (`List (key × value)`) with in-place update (`setK`) and
  `dict.get(k, d)` (`getD`); Python sets as duplicate-free lists.
* File persistence is modelled by per-file "disk images" carried in the
  ledger state; a file write takes a boolean oracle telling whether the
  OS write succeeds, and a failing write raises `PyExn.osError`.
* A function that can raise returns `σ × Option PyExn`: Python mutates
  state in place, so mutations made before the raise survive in the
  returned state, and `some e` marks the exception propagating.
-/

set_option autoImplicit false

namespace Crawler

/-! ## Python string/number primitives -/

/-- Decimal digits of `n`, least significant first, fuel-indexed so that the
definition is structural (kernel-reducible).  `natStr` supplies fuel `n + 1`,
which always suffices. -/
def natDigitsRevFuel : Nat → Nat → List Char
  | 0, _ => []
  | fuel + 1, n =>
    if n < 10 then [Nat.digitChar n]
    else Nat.digitChar (n % 10) :: natDigitsRevFuel fuel (n / 10)

/-- Python `str(n)` for a non-negative integer. -/
def natStr (n : Nat) : List Char := (natDigitsRevFuel (n + 1) n).reverse

/-- Python `str(n)` for an arbitrary integer. -/
def intStr (n : Int) : List Char :=
  if n < 0 then '-' :: natStr n.natAbs else natStr n.natAbs

/-- Python `f"{n:02d}"`: zero-pad to width 2. -/
def pad2 (n : Nat) : List Char :=
  List.replicate (2 - (natStr n).length) '0' ++ natStr n

/-- Python `f"{n:06d}"`: zero-pad to width 6 (wider numbers are not
truncated). -/
def pad6 (n : Nat) : List Char :=
  List.replicate (6 - (natStr n).length) '0' ++ natStr n

/-- The ASCII whitespace characters stripped by Python `int(str)`. -/
def isPyWs (c : Char) : Bool :=
  c = ' ' || c = '\t' || c = '\n' || c = '\r' || c = '\x0b' || c = '\x0c'

/-- Strip leading and trailing whitespace, as Python `int(str)` does. -/
def stripWs (l : List Char) : List Char :=
  ((l.dropWhile isPyWs).reverse.dropWhile isPyWs).reverse

/-- Digit-sequence parser of Python `int(str)` after the first digit:
accepts further digits, with single underscores allowed between digits. -/
def pyDigitsCore : List Char → Nat → Option Nat
  | [], acc => some acc
  | c :: rest, acc =>
    if c.isDigit then pyDigitsCore rest (acc * 10 + (c.toNat - 48))
    else if c = '_' then
      match rest with
      | [] => none
      | c2 :: rest2 =>
        if c2.isDigit then pyDigitsCore rest2 (acc * 10 + (c2.toNat - 48))
        else none
    else none

/-- Nonempty digit sequence (Python `int` digit grammar, base 10). -/
def pyDigits : List Char → Option Nat
  | [] => none
  | c :: rest =>
    if c.isDigit then pyDigitsCore rest (c.toNat - 48) else none

/-- Optional sign in front of the digits. -/
def pySigned : List Char → Option Int
  | [] => none
  | c :: rest =>
    if c = '+' then (pyDigits rest).map (fun n => (n : Int))
    else if c = '-' then (pyDigits rest).map (fun n => -(n : Int))
    else (pyDigits (c :: rest)).map (fun n => (n : Int))

/-- Python `int(s)`: `none` models a raised `ValueError`. -/
def pyInt (l : List Char) : Option Int := pySigned (stripWs l)

/-! ## Configuration (`src/config.py`) -/

/-- `Config.registration["council_codes"]`: `[f"{i:02d}" for i in range(1, 66)]`. -/
def council_codes : List (List Char) := (List.range' 1 65).map pad2

/-- `Config.registration["student_number_min"]`. -/
def student_number_min : Nat := 1

/-- `Config.registration["student_number_max"]`. -/
def student_number_max : Nat := 999999

/-- `Config.crawler["batch_size"]`. -/
def config_batch_size : Nat := 1000

/-! ## Identifier space generator (`src/registration_number_generator.py`) -/

/-- `RegistrationNumberGenerator.generate_single`: pad the student number to
six digits and concatenate after the council code.  The Python method performs
no validation of either argument. -/
def generate_single (council_code : List Char) (student_number : Nat) : List Char :=
  council_code ++ pad6 student_number

/-- `RegistrationNumberGenerator.generate_for_council`: all identifiers of one
council, ascending (`range(min, max + 1)`). -/
def generate_for_council (council_code : List Char) : List (List Char) :=
  (List.range' student_number_min (student_number_max + 1 - student_number_min)).map
    (generate_single council_code)

/-- `RegistrationNumberGenerator.generate_all`: the full region-major
enumeration (councils in configured order, sequences ascending). -/
def generate_all : List (List Char) :=
  (council_codes.map generate_for_council).flatten

/-- Inner loop of `generate_batches` for one council: append identifiers to a
running batch, yielding the batch whenever it reaches `batch_size`, and yield
the nonempty remainder when the council's identifiers run out. -/
def batchLoop (batch_size : Nat) : List (List Char) → List (List Char) → List (List (List Char))
  | [], batch => if batch.isEmpty then [] else [batch]
  | x :: xs, batch =>
    let b := batch ++ [x]
    if b.length = batch_size then b :: batchLoop batch_size xs []
    else batchLoop batch_size xs b

/-- `RegistrationNumberGenerator.generate_batches`: the running batch is reset
at the start of every council, so every council flushes its own remainder. -/
def generate_batches (batch_size : Nat) : List (List (List Char)) :=
  (council_codes.map (fun c => batchLoop batch_size (generate_for_council c) [])).flatten

/-- `RegistrationNumberGenerator.is_valid_format`: length 8, known council
code, numeric student part within the configured bounds. -/
def is_valid_format (registration_number : List Char) : Bool :=
  -- `if not registration_number or len(registration_number) != 8` — the
  -- emptiness test is subsumed by the length test.
  if registration_number.length ≠ 8 then false
  else
    let council_code := registration_number.take 2
    let student_str := registration_number.drop 2
    if ¬ (council_codes.contains council_code) then false
    else
      match pyInt student_str with
      | none => false
      | some student_num =>
        if student_num < (student_number_min : Int) then false
        else if (student_number_max : Int) < student_num then false
        else true

/-- Result dictionary of `RegistrationNumberGenerator.parse`. -/
structure ParseResult where
  council_code : List Char
  student_number : Int
  full : List Char
  deriving DecidableEq, Repr

/-- `RegistrationNumberGenerator.parse`: `none` models the raised
`ValueError("Invalid registration number format: ...")`. -/
def parse (registration_number : List Char) : Option ParseResult :=
  if is_valid_format registration_number then
    (pyInt (registration_number.drop 2)).map
      (fun v => ⟨registration_number.take 2, v, registration_number⟩)
  else none

/-- `RegistrationNumberGenerator.get_total_count`. -/
def get_total_count : Nat :=
  council_codes.length * (student_number_max - student_number_min + 1)

/-! ## Association-list model of Python dicts -/

/-- Python `d.get(k, default)`. -/
def getD {α : Type} (m : List (List Char × α)) (k : List Char) (d : α) : α :=
  match m.lookup k with
  | some v => v
  | none => d

/-- Python `d[k] = v`: replace in place if the key is present, otherwise
append (dicts preserve insertion order). -/
def setK {α : Type} (m : List (List Char × α)) (k : List Char) (v : α) : List (List Char × α) :=
  match m with
  | [] => [(k, v)]
  | (k', v') :: rest => if k' = k then (k, v) :: rest else (k', v') :: setK rest k v

/-- Python `s.add(x)` on a set modelled as a duplicate-free list. -/
def insertSet (s : List (List Char)) (x : List Char) : List (List Char) :=
  if s.contains x then s else s ++ [x]

/-! ## Skip ledger (`src/crawler_skip_manager.py`) -/

/-- Exceptions the embedded code can raise. -/
inductive PyExn where
  /-- An `OSError` from a failed file write. -/
  | osError
  /-- A `ValueError`, e.g. from `int()` on a non-numeric string. -/
  | valueError
  deriving DecidableEq, Repr

/-- One entry of `skip_ranges[council]`: the dict
`{"start": ..., "end": ..., "reason": ..., "added_at": ...}`. -/
structure SkipRange where
  start : Int
  «end» : Int
  reason : List Char
  added_at : List Char
  deriving DecidableEq, Repr

/-- The state of a `CrawlerSkipManager` instance, together with the disk
images of its three persistence files.  `file_ctime` models the string
`str(os.path.getctime(__file__))` stamped into new skip ranges. -/
structure SkipState where
  skip_ranges : List (List Char × List SkipRange)
  council_limits : List (List Char × Int)
  invalid_patterns : List (List Char)
  consecutive_failures : List (List Char × Nat)
  last_valid_number : List (List Char × Int)
  failure_threshold : Nat
  disk_skip_ranges : List (List Char × List SkipRange)
  disk_council_limits : List (List Char × Int)
  disk_invalid_patterns : List (List Char)
  file_ctime : List Char
  deriving DecidableEq, Repr

/-- The string literals used by the ledger. -/
def strNotFound : List Char := "not_found".toList

/-- `"error"` (the error kind used by `main.crawl_registration_number`). -/
def strError : List Char := "error".toList

/-- `"consecutive_failures"` (the reason tag of promoted skip ranges). -/
def strConsecutiveFailures : List Char := "consecutive_failures".toList

/-- The f-string key `f"{council_code}_{student_number}"` of the
consecutive-failure counter dict. -/
def mkKey (council_code : List Char) (student_number : Int) : List Char :=
  council_code ++ '_' :: intStr student_number

/-- `CrawlerSkipManager._save_skip_ranges`: copy the in-memory skip ranges to
the file; `ioOk = false` models the write raising `OSError`. -/
def save_skip_ranges (st : SkipState) (ioOk : Bool) : SkipState × Option PyExn :=
  if ioOk then ({ st with disk_skip_ranges := st.skip_ranges }, none)
  else (st, some PyExn.osError)

/-- `CrawlerSkipManager._save_council_limits`. -/
def save_council_limits (st : SkipState) (ioOk : Bool) : SkipState × Option PyExn :=
  if ioOk then ({ st with disk_council_limits := st.council_limits }, none)
  else (st, some PyExn.osError)

/-- `CrawlerSkipManager._save_invalid_patterns`. -/
def save_invalid_patterns (st : SkipState) (ioOk : Bool) : SkipState × Option PyExn :=
  if ioOk then ({ st with disk_invalid_patterns := st.invalid_patterns }, none)
  else (st, some PyExn.osError)

/-- `CrawlerSkipManager.should_skip`: council limit, then skip ranges, then
the invalid set.  `none` models `int(registration_number[2:])` raising. -/
def should_skip (st : SkipState) (registration_number : List Char) : Option Bool :=
  let council_code := registration_number.take 2
  (pyInt (registration_number.drop 2)).map (fun student_number =>
    let overLimit : Bool :=
      match st.council_limits.lookup council_code with
      | some lim => student_number > lim
      | none => false
    if overLimit then true
    else if (getD st.skip_ranges council_code []).any
        (fun r => r.start ≤ student_number && student_number ≤ r.«end») then true
    else if st.invalid_patterns.contains registration_number then true
    else false)

/-- `CrawlerSkipManager.add_skip_range`: ensure the council has a range list,
append the new range (stamped with the file ctime), and save immediately. -/
def add_skip_range (st : SkipState) (council_code : List Char)
    (start_student end_student : Int) (reason : List Char) (ioOk : Bool) :
    SkipState × Option PyExn :=
  let st1 :=
    if (st.skip_ranges.lookup council_code).isNone then
      { st with skip_ranges := setK st.skip_ranges council_code [] }
    else st
  let newRange : SkipRange := ⟨start_student, end_student, reason, st.file_ctime⟩
  let st2 := { st1 with
    skip_ranges :=
      setK st1.skip_ranges council_code (getD st1.skip_ranges council_code [] ++ [newRange]) }
  save_skip_ranges st2 ioOk

/-- `CrawlerSkipManager.record_failure`: bump the per-(council, sequence)
counter, add the identifier to the invalid set, and at the threshold promote
`[student_number, student_number + 1000]` into a persisted skip range. -/
def record_failure (st : SkipState) (registration_number : List Char)
    (_error_type : List Char) (ioOk : Bool) : SkipState × Option PyExn :=
  let council_code := registration_number.take 2
  match pyInt (registration_number.drop 2) with
  | none => (st, some PyExn.valueError)
  | some student_number =>
    let key := mkKey council_code student_number
    let cnt := getD st.consecutive_failures key 0 + 1
    let st1 := { st with consecutive_failures := setK st.consecutive_failures key cnt }
    let st2 := { st1 with invalid_patterns := insertSet st1.invalid_patterns registration_number }
    if cnt ≥ st2.failure_threshold then
      add_skip_range st2 council_code student_number (student_number + 1000)
        strConsecutiveFailures ioOk
    else (st2, none)

/-- `CrawlerSkipManager.record_success`: raise the last-known-valid number and
reset the per-(council, sequence) counter. -/
def record_success (st : SkipState) (registration_number : List Char) :
    SkipState × Option PyExn :=
  let council_code := registration_number.take 2
  match pyInt (registration_number.drop 2) with
  | none => (st, some PyExn.valueError)
  | some student_number =>
    let st1 := { st with
      last_valid_number :=
        setK st.last_valid_number council_code
          (max (getD st.last_valid_number council_code 0) student_number) }
    let st2 := { st1 with
      consecutive_failures := setK st1.consecutive_failures (mkKey council_code student_number) 0 }
    (st2, none)

/-- `CrawlerSkipManager.set_council_limit`: lower the limit only if the new
value is strictly smaller than the current one (`float("inf")` when absent),
saving the file only on change. -/
def set_council_limit (st : SkipState) (council_code : List Char)
    (max_student_number : Int) (ioOk : Bool) : SkipState × Option PyExn :=
  match st.council_limits.lookup council_code with
  | none =>
    -- current limit is float("inf"): any integer is smaller
    let st1 := { st with council_limits := setK st.council_limits council_code max_student_number }
    save_council_limits st1 ioOk
  | some current_limit =>
    if max_student_number < current_limit then
      let st1 := { st with council_limits := setK st.council_limits council_code max_student_number }
      save_council_limits st1 ioOk
    else (st, none)

/-- The statistics dictionary of `CrawlerSkipManager.get_skip_stats`. -/
structure SkipStats where
  councils_with_limits : Nat
  total_skip_ranges : Nat
  invalid_patterns : Nat
  consecutive_failures_tracked : Nat
  last_valid_numbers : Nat
  deriving DecidableEq, Repr

/-- `CrawlerSkipManager.get_skip_stats`. -/
def get_skip_stats (st : SkipState) : SkipStats :=
  ⟨st.council_limits.length,
   (st.skip_ranges.map (fun p => p.2.length)).sum,
   st.invalid_patterns.length,
   st.consecutive_failures.length,
   st.last_valid_number.length⟩

/-- `CrawlerSkipManager.save_all`: the three saves in order, an exception in
an earlier one aborting the later ones. -/
def save_all (st : SkipState) (io1 io2 io3 : Bool) : SkipState × Option PyExn :=
  match save_skip_ranges st io1 with
  | (st1, some e) => (st1, some e)
  | (st1, none) =>
    match save_council_limits st1 io2 with
    | (st2, some e) => (st2, some e)
    | (st2, none) => save_invalid_patterns st2 io3

/-! ## Fetch backend interface and single-probe orchestrator (`main.py`) -/

/-- A found record; the orchestrators only ever read `registration_number`
(`main_enhanced.crawl_batch_api` matches results back to requests by it), the
rest of the payload is routed opaquely. -/
structure Record where
  registration_number : List Char
  payload : List Char
  deriving DecidableEq, Repr

/-- Outcome of one `scraper.scrape_registration_number` attempt:
a truthy result dict, a falsy result (`None`), or a raised exception. -/
inductive FetchOutcome where
  | found (r : Record)
  | absent
  | error
  deriving DecidableEq, Repr

/-- Value returned by `main.crawl_registration_number`: the result dict, the
literal `None` (miss), or the literal `False` (skipped).  `False` and `None`
are distinct Python values but both falsy. -/
inductive CrawlResult where
  | found (r : Record)
  | noneV
  | falseV
  deriving DecidableEq, Repr

/-- Python truthiness of a `CrawlResult` (`if result:` in `main.py`). -/
def isTruthy : CrawlResult → Bool
  | CrawlResult.found _ => true
  | CrawlResult.noneV => false
  | CrawlResult.falseV => false

/-- The retry loop of `main.crawl_registration_number`
(`for attempt in range(max_retries)` with `max_retries = 2`): `fetch a` is the
outcome of the scrape on attempt `a`; exceptions raised inside the `try`
(including by `record_failure`'s save) re-enter the loop, and on the last
attempt trigger `record_failure(..., "error")`.  A second component of `none`
models an exception propagating out of the function. -/
def crawlAttempts (fetch : Nat → FetchOutcome) (ioOk : Bool)
    (registration_number : List Char) :
    Nat → Nat → SkipState → SkipState × Option CrawlResult
  | _, 0, st => (st, some CrawlResult.noneV)  -- unreachable: range(2) is nonempty
  | attempt, rem + 1, st =>
    -- the body of one `try`; `onExcept` is the `except Exception` handler
    let onExcept : SkipState → SkipState × Option CrawlResult := fun st' =>
      if rem > 0 then crawlAttempts fetch ioOk registration_number (attempt + 1) rem st'
      else
        match record_failure st' registration_number strError ioOk with
        | (st'', none) => (st'', some CrawlResult.noneV)
        | (st'', some _) => (st'', none)
    match fetch attempt with
    | FetchOutcome.error => onExcept st
    | FetchOutcome.found r =>
      match record_success st registration_number with
      | (st', none) => (st', some (CrawlResult.found r))
      | (st', some _) => onExcept st'
    | FetchOutcome.absent =>
      match record_failure st registration_number strNotFound ioOk with
      | (st', none) => (st', some CrawlResult.noneV)
      | (st', some _) => onExcept st'

/-- `main.crawl_registration_number`: consult the ledger first (returning the
Python literal `False` on a skip, without touching the ledger or the backend),
otherwise probe with up to two attempts. -/
def crawl_registration_number (st : SkipState) (registration_number : List Char)
    (fetch : Nat → FetchOutcome) (ioOk : Bool) : SkipState × Option CrawlResult :=
  match should_skip st registration_number with
  | none => (st, none)  -- ValueError from should_skip propagates
  | some true => (st, some CrawlResult.falseV)
  | some false => crawlAttempts fetch ioOk registration_number 0 2 st

/-- The mutable state of `main.main`'s crawl loop: the per-council cursor and
counters, the aggregate totals, the ledger, and the result saver (in-memory
result list plus its disk image). -/
structure MainState where
  consecutive_failures : Nat
  student_number : Nat
  council_successful : Nat
  total_processed : Nat
  total_successful : Nat
  total_failed : Nat
  total_skipped : Nat
  last_save_count : Nat
  skip : SkipState
  saver_results : List Record
  saver_disk : List Record
  deriving DecidableEq, Repr

/-- One iteration of the `while consecutive_failures < 10` body in
`main.main`: crawl the identifier at the cursor, then branch on the Python
truthiness of the result.  A second component of `some e` models an exception
propagating out of the loop. -/
def mainStep (council_code : List Char) (fetch : Nat → FetchOutcome) (ioOk : Bool)
    (ms : MainState) : MainState × Option Unit :=
  let registration_number := council_code ++ pad6 ms.student_number
  match crawl_registration_number ms.skip registration_number fetch ioOk with
  | (st', none) => ({ ms with skip := st' }, some ())
  | (st', some result) =>
    let ms := { ms with skip := st' }
    let ms :=
      if isTruthy result then
        let ms := { ms with
          council_successful := ms.council_successful + 1,
          consecutive_failures := 0,
          saver_results :=
            ms.saver_results ++
              (match result with
               | CrawlResult.found r => [r]
               | _ => []),
          total_successful := ms.total_successful + 1 }
        -- auto-save every 100 successful students
        if ms.total_successful - ms.last_save_count ≥ 100 then
          { ms with saver_disk := ms.saver_results, last_save_count := ms.total_successful }
        else ms
      else
        { ms with
          consecutive_failures := ms.consecutive_failures + 1,
          total_failed := ms.total_failed + 1 }
    ({ ms with
        total_processed := ms.total_processed + 1,
        student_number := ms.student_number + 1 }, none)

/-- The `while consecutive_failures < 10` loop of `main.main`, bounded by
fuel (the loop has no intrinsic bound when the backend keeps answering). -/
def runCouncil (council_code : List Char) (fetch : Nat → FetchOutcome) (ioOk : Bool) :
    Nat → MainState → MainState × Option Unit
  | 0, ms => (ms, none)
  | fuel + 1, ms =>
    if ms.consecutive_failures < 10 then
      match mainStep council_code fetch ioOk ms with
      | (ms', none) => runCouncil council_code fetch ioOk fuel ms'
      | (ms', some e) => (ms', some e)
    else (ms, none)

/-- The `for council_num in range(1, 66)` loop of `main.main`: each council
starts with a fresh cursor (`student_number = 1`) and counter, saves results
at the end, and updates `last_save_count`. -/
def runCouncils (fetch : List Char → Nat → FetchOutcome) (ioOk : Bool) (fuel : Nat) :
    List (List Char) → MainState → MainState × Option Unit
  | [], ms => (ms, none)
  | c :: cs, ms =>
    let ms := { ms with consecutive_failures := 0, student_number := 1, council_successful := 0 }
    match runCouncil c (fetch c) ioOk fuel ms with
    | (ms', some e) => (ms', some e)
    | (ms', none) =>
      let ms' := { ms' with saver_disk := ms'.saver_results,
                            last_save_count := ms'.total_successful }
      runCouncils fetch ioOk fuel cs ms'

/-- The initial totals of `main.main` (`total_processed = 0`, ... ,
`total_skipped = 0`, `last_save_count = 0`). -/
def initMainState (st : SkipState) : MainState :=
  ⟨0, 1, 0, 0, 0, 0, 0, 0, st, [], []⟩

/-- The `overall_success_rate` expression of `main.main`'s final report:
`(total_successful / max(1, total_processed - total_skipped)) * 100`,
with Python's exact `int` subtraction and true division modelled in `ℚ`. -/
def overall_success_rate (total_successful total_processed total_skipped : Nat) : ℚ :=
  ((total_successful : ℚ) / ((max 1 ((total_processed : Int) - (total_skipped : Int)) : Int) : ℚ)) * 100

/-- The `Success Rate` expression of `ResultsSaver.save_summary`:
`(stats['successful'] / max(1, stats['total_processed'])) * 100`. -/
def summary_success_rate (successful total_processed : Nat) : ℚ :=
  ((successful : ℚ) / ((max 1 (total_processed : Int) : Int) : ℚ)) * 100

/-! ## Batched orchestrator (`main_enhanced.py`) -/

/-- `valid_numbers = [num for num in registration_numbers if not
self.skip_manager.should_skip(num)]`; `none` models `should_skip` raising. -/
def filterValid (st : SkipState) : List (List Char) → Option (List (List Char))
  | [] => some []
  | n :: ns =>
    match should_skip st n with
    | none => none
    | some true => filterValid st ns
    | some false => (filterValid st ns).map (fun l => n :: l)

/-- The `for num in valid_numbers` reconciliation loop of
`ApiCrawler.crawl_batch_api`: present identifiers are successes, absent ones
failures. -/
def recordLoop (found_numbers : List (List Char)) (ioOk : Bool) :
    List (List Char) → SkipState → SkipState × Option PyExn
  | [], st => (st, none)
  | n :: ns, st =>
    let step :=
      if found_numbers.contains n then record_success st n
      else record_failure st n strNotFound ioOk
    match step with
    | (st', none) => recordLoop found_numbers ioOk ns st'
    | (st', some e) => (st', some e)

/-- `ApiCrawler.crawl_batch_api`.  `apiInit` models `self.api_scraper` being
set; `fetchB` is `self.api_scraper.fetch_batch`.  The returned `Nat` counts
backend invocations (0 or 1).  Exceptions inside the `try` (batch fetch or
ledger bookkeeping) are caught, logged and turned into an empty result list;
an overall `none` models `should_skip` raising outside the `try`. -/
def crawl_batch_api (apiInit : Bool) (st : SkipState)
    (registration_numbers : List (List Char))
    (fetchB : List (List Char) → List Record) (ioOk : Bool) :
    Option (SkipState × List Record × Nat) :=
  if apiInit = false then some (st, [], 0)
  else
    match filterValid st registration_numbers with
    | none => none
    | some valid_numbers =>
      if valid_numbers.isEmpty then some (st, [], 0)
      else
        let results := fetchB valid_numbers
        let found_numbers := results.map (fun r => r.registration_number)
        match recordLoop found_numbers ioOk valid_numbers st with
        | (st', none) => some (st', results, 1)
        | (st', some _) => some (st', [], 1)

/-- The mutable state of `ApiCrawler.crawl_council_fast` plus the crawler's
aggregate `self.stats` and result saver. -/
structure EnhState where
  consecutive_failures : Nat
  student_number : Nat
  council_successful : Nat
  total_processed : Nat
  total_successful : Nat
  total_failed : Nat
  last_save_count : Nat
  skip : SkipState
  saver_results : List Record
  saver_disk : List Record
  deriving DecidableEq, Repr

/-- The batch-building `for i in range(batch_size)` loop of
`crawl_council_fast` (`batch_size = 100`): `cf` is the loop's view of
`consecutive_failures`, which the loop itself never changes, so the `break`
can only fire if it was already at the limit.  Returns the batch and the
advanced cursor. -/
def buildBatchAux (council_code : List Char) (cf : Nat) :
    Nat → Nat → List (List Char) × Nat
  | 0, sn => ([], sn)
  | i + 1, sn =>
    if cf ≥ 1000 then ([], sn)
    else
      let reg_num := council_code ++ pad6 sn
      let (rest, sn') := buildBatchAux council_code cf i (sn + 1)
      (reg_num :: rest, sn')

/-- The batch a `crawl_council_fast` iteration will build from state `es`. -/
def batchOf (council_code : List Char) (es : EnhState) : List (List Char) :=
  (buildBatchAux council_code es.consecutive_failures 100 es.student_number).1

/-- One iteration of the `while consecutive_failures < 1000` body of
`ApiCrawler.crawl_council_fast` (to be entered only when the guard holds):
build a batch, crawl it via the API, and reconcile the counters — on an
all-miss batch both `consecutive_failures` and `stats["total_failed"]` grow by
the whole batch length.  The `Bool` is false when the `if not batch: break`
fired; an overall `none` models an exception propagating. -/
def enhIter (council_code : List Char) (fetchB : List (List Char) → List Record)
    (apiInit : Bool) (ioOk : Bool) (es : EnhState) : Option (EnhState × Bool) :=
  let bb := buildBatchAux council_code es.consecutive_failures 100 es.student_number
  let batch := bb.1
  let es1 := { es with student_number := bb.2 }
  if batch.isEmpty then some (es1, false)
  else
    match crawl_batch_api apiInit es1.skip batch fetchB ioOk with
    | none => none
    | some res =>
      let st' := res.1
      let results := res.2.1
      let es2 := { es1 with skip := st' }
      let es3 :=
        if results.isEmpty = false then
          { es2 with
            consecutive_failures := 0,
            council_successful := es2.council_successful + results.length,
            saver_results := es2.saver_results ++ results,
            total_successful := es2.total_successful + results.length }
        else
          { es2 with
            consecutive_failures := es2.consecutive_failures + batch.length,
            total_failed := es2.total_failed + batch.length }
      let es4 := { es3 with total_processed := es3.total_processed + batch.length }
      -- auto-save every 10000 successful students
      let es5 :=
        if es4.total_successful - es4.last_save_count ≥ 10000 then
          { es4 with saver_disk := es4.saver_results, last_save_count := es4.total_successful }
        else es4
      some (es5, true)

/-! ## Auxiliary specification-side definitions and concrete fixtures -/

/-- Numeric value of a digit string (most significant first). -/
def valNat (l : List Char) : Nat :=
  l.foldl (fun a c => a * 10 + (c.toNat - 48)) 0

/-- The per-council batch-length profile of `generate_batches`: `⌊L / s⌋` full
chunks followed by a short remainder chunk when `s` does not divide `L`. -/
def chunkLens (L s : Nat) : List Nat :=
  List.replicate (L / s) s ++ (if L % s = 0 then [] else [L % s])

/-- A fresh ledger: all maps empty, default threshold 100 (what
`CrawlerSkipManager.__init__` builds when no persistence file exists). -/
def stEmpty : SkipState := ⟨[], [], [], [], [], 100, [], [], [], []⟩

/-- Concrete council code `"01"`. -/
def code01 : List Char := "01".toList

/-- Concrete identifier `"01000005"` (council 01, sequence 5). -/
def reg01_5 : List Char := "01000005".toList

/-- Concrete council code `"99"`, outside the configured set. -/
def code99 : List Char := "99".toList

/-- Ill-formed identifier `"123"` (wrong length). -/
def regShort : List Char := "123".toList

/-- Identifier `"99000005"` with an unknown council code. -/
def regBadCouncil : List Char := "99000005".toList

/-- Identifier `"01000000"` whose sequence 0 is below the configured minimum. -/
def regZero : List Char := "01000000".toList

/-- A ledger with one persisted skip range `{start: 1, end: 1005}` for
council 01 (the shape `record_failure` promotion produces). -/
def stRange01 : SkipState :=
  ⟨[(code01, [⟨1, 1005, strConsecutiveFailures, []⟩])], [], [], [], [], 100, [], [], [], []⟩

/-- A ledger whose consecutive-failure counter for key `"01_5"` stands at 99,
one short of the default threshold. -/
def st99 : SkipState := ⟨[], [], [], [(mkKey code01 5, 99)], [], 100, [], [], [], []⟩

/-- A ledger with council 01's limit recorded as 0, so that every identifier
of council 01 is skipped. -/
def stLim0 : SkipState := ⟨[], [(code01, 0)], [], [], [], 100, [], [], [], []⟩

/-- A fresh ledger after `set_council_limit("01", 500)` with a successful
write (first step of the C6 scenario). -/
def stLimit500 : SkipState := (set_council_limit stEmpty code01 500 true).1

/-- Fresh `crawl_council_fast` state over the ledger `stLim0`. -/
def esLim0 : EnhState := ⟨0, 1, 0, 0, 0, 0, 0, stLim0, [], []⟩

/-- `main.main` loop state positioned at council 01, sequence 5, with some
prior counts, over the ledger `stRange01` (so the cursor points into the
persisted skip range). -/
def msSkip : MainState := ⟨3, 5, 2, 10, 2, 7, 0, 0, stRange01, [], []⟩

/-- Iterated `record_failure` on a fixed identifier with successful writes,
as the C2 scenario feeds it. -/
def recordFailureN (registration_number : List Char) (n : Nat) (st : SkipState) : SkipState :=
  Nat.iterate (fun s => (record_failure s registration_number strNotFound true).1) n st

/-! ## Lemmas on decimal rendering and Python `int` parsing -/

theorem digitChar_isDigit {d : Nat} (h : d < 10) : (Nat.digitChar d).isDigit = true := by
  interval_cases d <;> decide

theorem digitChar_toNat {d : Nat} (h : d < 10) : (Nat.digitChar d).toNat - 48 = d := by
  interval_cases d <;> decide

theorem isDigit_not_ws {c : Char} (h : c.isDigit = true) : isPyWs c = false := by
  by_contra hws
  simp only [isPyWs, Bool.or_eq_true, decide_eq_true_eq, Bool.not_eq_false] at hws
  rcases hws with ((((rfl | rfl) | rfl) | rfl) | rfl) | rfl <;> simp [Char.isDigit] at h

theorem isDigit_ne_plus {c : Char} (h : c.isDigit = true) : c ≠ '+' := by
  rintro rfl; simp [Char.isDigit] at h

theorem isDigit_ne_minus {c : Char} (h : c.isDigit = true) : c ≠ '-' := by
  rintro rfl; simp [Char.isDigit] at h

theorem natDigitsRevFuel_congr :
    ∀ f1 f2 n : Nat, n < f1 → n < f2 → natDigitsRevFuel f1 n = natDigitsRevFuel f2 n := by
  intro f1
  induction f1 with
  | zero => intro f2 n h; omega
  | succ f ih =>
    intro f2 n h1 h2
    match f2, h2 with
    | g + 1, _ =>
      simp only [natDigitsRevFuel]
      by_cases h10 : n < 10
      · simp [h10]
      · have hdiv : n / 10 < n := Nat.div_lt_self (by omega) (by omega)
        simp only [h10, if_false]
        rw [ih g (n / 10) (by omega) (by omega)]

theorem natStr_lt_10 {n : Nat} (h : n < 10) : natStr n = [Nat.digitChar n] := by
  simp [natStr, natDigitsRevFuel, h]

theorem natStr_ge_10 {n : Nat} (h : 10 ≤ n) :
    natStr n = natStr (n / 10) ++ [Nat.digitChar (n % 10)] := by
  have hdiv : n / 10 < n := Nat.div_lt_self (by omega) (by omega)
  have hfuel : natDigitsRevFuel (n + 1) n
      = Nat.digitChar (n % 10) :: natDigitsRevFuel (n / 10 + 1) (n / 10) := by
    conv_lhs => rw [natDigitsRevFuel]
    rw [if_neg (by omega)]
    rw [natDigitsRevFuel_congr n (n / 10 + 1) (n / 10) (by omega) (by omega)]
  simp only [natStr, hfuel, List.reverse_cons]

theorem natStr_ne_nil (n : Nat) : natStr n ≠ [] := by
  by_cases h : n < 10
  · rw [natStr_lt_10 h]; simp
  · rw [natStr_ge_10 (by omega)]; simp

theorem natStr_all_digit (n : Nat) : (natStr n).all Char.isDigit = true := by
  induction n using Nat.strong_induction_on with
  | _ n ih =>
    by_cases h : n < 10
    · rw [natStr_lt_10 h]
      simp [digitChar_isDigit h]
    · rw [natStr_ge_10 (by omega)]
      have hdiv : n / 10 < n := Nat.div_lt_self (by omega) (by omega)
      simp [ih _ hdiv, digitChar_isDigit (Nat.mod_lt n (by omega))]

theorem valNat_natStr (n : Nat) : valNat (natStr n) = n := by
  induction n using Nat.strong_induction_on with
  | _ n ih =>
    by_cases h : n < 10
    · rw [natStr_lt_10 h]
      simp [valNat, digitChar_toNat h]
    · rw [natStr_ge_10 (by omega)]
      have hdiv : n / 10 < n := Nat.div_lt_self (by omega) (by omega)
      have := ih _ hdiv
      simp only [valNat, List.foldl_append, List.foldl_cons, List.foldl_nil] at this ⊢
      rw [this, digitChar_toNat (Nat.mod_lt n (by omega))]
      omega

theorem natStr_length_le {n k : Nat} (hk : 1 ≤ k) (h : n < 10 ^ k) :
    (natStr n).length ≤ k := by
  induction n using Nat.strong_induction_on generalizing k with
  | _ n ih =>
    by_cases h10 : n < 10
    · rw [natStr_lt_10 h10]; simpa using hk
    · rw [natStr_ge_10 (by omega)]
      have hdiv : n / 10 < n := Nat.div_lt_self (by omega) (by omega)
      have hk2 : 2 ≤ k := by
        by_contra hlt
        have : k = 1 := by omega
        subst this
        simp at h
        omega
      have hq : n / 10 < 10 ^ (k - 1) := by
        have hpow : 10 ^ k = 10 ^ (k - 1) * 10 := by
          conv_lhs => rw [show k = (k - 1) + 1 by omega]
          rw [pow_succ]
        exact (Nat.div_lt_iff_lt_mul (by omega)).mpr (by omega)
      have := ih _ hdiv (k := k - 1) (by omega) hq
      simp only [List.length_append, List.length_cons, List.length_nil]
      omega

theorem pad6_all_digit (n : Nat) : (pad6 n).all Char.isDigit = true := by
  simp only [pad6, List.all_append, Bool.and_eq_true]
  refine ⟨?_, natStr_all_digit n⟩
  simp only [List.all_eq_true]
  intro c hc
  rw [List.eq_of_mem_replicate hc]
  decide

theorem pad6_ne_nil (n : Nat) : pad6 n ≠ [] := by
  simp only [pad6]
  intro h
  exact natStr_ne_nil n (List.append_eq_nil.mp h).2

theorem valNat_zeros_append (k : Nat) (l : List Char) :
    valNat (List.replicate k '0' ++ l) = valNat l := by
  induction k with
  | zero => simp
  | succ m ih =>
    simpa [valNat, List.replicate_succ] using ih

theorem valNat_pad6 (n : Nat) : valNat (pad6 n) = n := by
  rw [pad6, valNat_zeros_append, valNat_natStr]

theorem pyDigitsCore_all_digit :
    ∀ (l : List Char) (acc : Nat), l.all Char.isDigit = true →
      pyDigitsCore l acc = some (l.foldl (fun a c => a * 10 + (c.toNat - 48)) acc)
  | [], acc, _ => rfl
  | c :: rest, acc, h => by
    simp only [List.all_cons, Bool.and_eq_true] at h
    rw [pyDigitsCore.eq_def]
    simp only [if_pos h.1, List.foldl_cons]
    exact pyDigitsCore_all_digit rest _ h.2

theorem pyDigits_all_digit (l : List Char) (hne : l ≠ []) (h : l.all Char.isDigit = true) :
    pyDigits l = some (valNat l) := by
  match l, hne with
  | c :: rest, _ =>
    simp only [List.all_cons, Bool.and_eq_true] at h
    simp only [pyDigits, h.1, if_true]
    rw [pyDigitsCore_all_digit rest _ h.2]
    simp [valNat, h.1]

theorem dropWhile_ws_all_digit (m : List Char) (h : m.all Char.isDigit = true) :
    m.dropWhile isPyWs = m := by
  match m with
  | [] => rfl
  | c :: rest =>
    simp only [List.all_cons, Bool.and_eq_true] at h
    simp [List.dropWhile_cons, isDigit_not_ws h.1]

theorem stripWs_all_digit (l : List Char) (h : l.all Char.isDigit = true) :
    stripWs l = l := by
  have hrev : l.reverse.all Char.isDigit = true := by
    simp only [List.all_eq_true] at h ⊢
    intro c hc
    exact h c (List.mem_reverse.mp hc)
  rw [stripWs, dropWhile_ws_all_digit l h, dropWhile_ws_all_digit l.reverse hrev,
    List.reverse_reverse]

theorem pyInt_all_digit (l : List Char) (hne : l ≠ []) (h : l.all Char.isDigit = true) :
    pyInt l = some ((valNat l : Nat) : Int) := by
  rw [pyInt, stripWs_all_digit l h]
  match l, hne with
  | c :: rest, _ =>
    have hc : c.isDigit = true := by
      simp only [List.all_cons, Bool.and_eq_true] at h
      exact h.1
    simp only [pySigned, if_neg (isDigit_ne_plus hc), if_neg (isDigit_ne_minus hc)]
    rw [pyDigits_all_digit _ (by simp) h]
    rfl

theorem pyInt_pad6 (n : Nat) : pyInt (pad6 n) = some ((n : Nat) : Int) := by
  rw [pyInt_all_digit (pad6 n) (pad6_ne_nil n) (pad6_all_digit n), valNat_pad6]

theorem pad6_length (n : Nat) : (pad6 n).length = max 6 (natStr n).length := by
  simp only [pad6, List.length_append, List.length_replicate]
  omega

theorem pad6_length_of_le {n : Nat} (h : n ≤ 999999) : (pad6 n).length = 6 := by
  have := natStr_length_le (n := n) (k := 6) (by omega) (by norm_num; omega)
  rw [pad6_length]
  omega

/-! ## Lemmas on identifiers and the configured council codes -/

theorem take2_append {c x : List Char} (h : c.length = 2) : (c ++ x).take 2 = c := by
  rw [← h, List.take_left]

theorem drop2_append {c x : List Char} (h : c.length = 2) : (c ++ x).drop 2 = x := by
  rw [← h, List.drop_left]

theorem council_codes_length : ∀ c ∈ council_codes, c.length = 2 := by decide

theorem council_codes_contains {c : List Char} (h : c ∈ council_codes) :
    council_codes.contains c = true := by
  simpa [List.contains] using h

theorem generate_single_take {c : List Char} (n : Nat) (h : c.length = 2) :
    (generate_single c n).take 2 = c :=
  take2_append h

theorem generate_single_drop {c : List Char} (n : Nat) (h : c.length = 2) :
    (generate_single c n).drop 2 = pad6 n :=
  drop2_append h

theorem generate_single_length {c : List Char} {n : Nat} (hc : c.length = 2)
    (hn : n ≤ 999999) : (generate_single c n).length = 8 := by
  simp [generate_single, List.length_append, hc, pad6_length_of_le hn]

theorem is_valid_format_generate {c : List Char} {n : Nat} (hc : c ∈ council_codes)
    (hmin : student_number_min ≤ n) (hmax : n ≤ student_number_max) :
    is_valid_format (generate_single c n) = true := by
  have hc2 : c.length = 2 := council_codes_length c hc
  have hmax' : n ≤ 999999 := hmax
  rw [is_valid_format]
  rw [if_neg (by rw [generate_single_length hc2 hmax']; simp)]
  simp only [generate_single_take n hc2, generate_single_drop n hc2,
    council_codes_contains hc, pyInt_pad6]
  have h1 : ¬ ((n : Int) < (student_number_min : Int)) := by exact_mod_cast Nat.not_lt.mpr hmin
  have h2 : ¬ ((student_number_max : Int) < (n : Int)) := by exact_mod_cast Nat.not_lt.mpr hmax
  simp [h1, h2]

theorem parse_eq_none_of_not_valid {reg : List Char} (h : is_valid_format reg = false) :
    parse reg = none := by
  simp [parse, h]

theorem is_valid_false_of_length {reg : List Char} (h : reg.length ≠ 8) :
    is_valid_format reg = false := by
  rw [is_valid_format]
  simp [h]

theorem is_valid_false_of_council {reg : List Char} (h : reg.take 2 ∉ council_codes) :
    is_valid_format reg = false := by
  rw [is_valid_format]
  by_cases hl : reg.length ≠ 8
  · simp [hl]
  · have hcc : council_codes.contains (reg.take 2) = false := by
      simpa [List.contains] using h
    simp [hl, hcc]
    intro hmem
    exact absurd hmem h

theorem is_valid_false_of_bounds {reg : List Char} {v : Int}
    (hv : pyInt (reg.drop 2) = some v)
    (hb : v < (student_number_min : Int) ∨ (student_number_max : Int) < v) :
    is_valid_format reg = false := by
  rw [is_valid_format]
  by_cases hl : reg.length ≠ 8
  · simp [hl]
  · by_cases hcc : council_codes.contains (reg.take 2) = true
    · simp only [hl, if_false, hcc, pyInt] at *
      simp only [hv]
      rcases hb with h | h
      · simp [h]
      · have h' : ¬ (v < (student_number_min : Int)) := by
          have : (student_number_min : Int) ≤ (student_number_max : Int) := by decide
          omega
        simp [h', h]
    · have hcc' : council_codes.contains (reg.take 2) = false := by
        simpa using hcc
      simp [hl, hcc']
      intro hmem
      exact absurd (council_codes_contains hmem) hcc

theorem parse_generate {c : List Char} {n : Nat} (hc : c ∈ council_codes)
    (hmin : student_number_min ≤ n) (hmax : n ≤ student_number_max) :
    parse (generate_single c n) =
      some ⟨c, (n : Int), generate_single c n⟩ := by
  have hc2 : c.length = 2 := council_codes_length c hc
  rw [parse, if_pos (is_valid_format_generate hc hmin hmax),
    generate_single_drop n hc2, pyInt_pad6]
  simp [generate_single_take n hc2]

/-! ## Claim theorems: identifier space generator -/

/-- Claim C3: for every configured council code and in-bounds sequence number,
`parse` inverts `generate_single`; and `parse` rejects (raises the
invalid-format `ValueError`, modelled as `none`) every identifier of wrong
length, with an unknown council code, or whose numeric sequence value lies
outside the configured bounds. -/
theorem claim_C3 :
    (∀ c ∈ council_codes, ∀ n : Nat,
        student_number_min ≤ n → n ≤ student_number_max →
        parse (generate_single c n) = some ⟨c, (n : Int), generate_single c n⟩) ∧
    (∀ reg : List Char, reg.length ≠ 8 → parse reg = none) ∧
    (∀ reg : List Char, reg.take 2 ∉ council_codes → parse reg = none) ∧
    (∀ reg : List Char, ∀ v : Int, pyInt (reg.drop 2) = some v →
        (v < (student_number_min : Int) ∨ (student_number_max : Int) < v) →
        parse reg = none) := by
  refine ⟨?_, ?_, ?_, ?_⟩
  · intro c hc n hmin hmax
    exact parse_generate hc hmin hmax
  · intro reg h
    exact parse_eq_none_of_not_valid (is_valid_false_of_length h)
  · intro reg h
    exact parse_eq_none_of_not_valid (is_valid_false_of_council h)
  · intro reg v hv hb
    exact parse_eq_none_of_not_valid (is_valid_false_of_bounds hv hb)

/-- Witness for C3 at concrete inputs: the round trip at `("01", 5)` and the
three rejection modes at `"123"`, `"99000005"` and `"01000000"`. -/
theorem claim_C3_witness :
    parse (generate_single code01 5) = some ⟨code01, (5 : Int), generate_single code01 5⟩ ∧
    parse regShort = none ∧
    parse regBadCouncil = none ∧
    parse regZero = none :=
  ⟨claim_C3.1 code01 (by decide) 5 (by decide) (by decide),
   claim_C3.2.1 regShort (by decide),
   claim_C3.2.2.1 regBadCouncil (by decide),
   claim_C3.2.2.2 regZero 0 (by decide) (by decide)⟩

/-- Counterexample to claim C7: `generate_single` raises no error on invalid
arguments — for the out-of-set council `"99"` and the out-of-bounds sequence
0 it happily returns the identifier `"99000000"`. -/
theorem claim_C7_counterexample :
    generate_single code99 0 = code99 ++ pad6 0 ∧
    code99 ∉ council_codes ∧
    0 < student_number_min := by
  refine ⟨rfl, by decide, by decide⟩

/-- Claim C7 as amended: `generate_single` performs no validation and never
fails — for every council string and every sequence number (in the configured
set and bounds or not) it returns the council code followed by the zero-padded
decimal rendering of the sequence; the padded part is all digits, its numeric
value is the sequence, and for in-bounds sequences it is exactly 6 characters
wide. -/
theorem claim_C7_amended (c : List Char) (n : Nat) :
    generate_single c n = c ++ pad6 n ∧
    (pad6 n).all Char.isDigit = true ∧
    pyInt (pad6 n) = some (n : Int) ∧
    (n ≤ student_number_max → (pad6 n).length = 6) :=
  ⟨rfl, pad6_all_digit n, pyInt_pad6 n, fun h => pad6_length_of_le h⟩

/-- Witness for the amended C7 at the invalid input `("99", 0)`. -/
theorem claim_C7_witness :
    generate_single code99 0 = code99 ++ pad6 0 ∧
    (pad6 0).all Char.isDigit = true ∧
    pyInt (pad6 0) = some (0 : Int) ∧
    (0 ≤ student_number_max → (pad6 0).length = 6) :=
  claim_C7_amended code99 0

/-! ## Lemmas on batching -/

theorem batchLoop_flatten {s : Nat} :
    ∀ (xs : List (List Char)) (b : List (List Char)), b.length < s →
      (batchLoop s xs b).flatten = b ++ xs
  | [], b, _ => by
    rw [batchLoop]
    by_cases hb : b.isEmpty
    · simp_all [List.isEmpty_iff]
    · simp_all [List.isEmpty_iff]
  | x :: xs, b, hb => by
    rw [batchLoop]
    by_cases hfull : (b ++ [x]).length = s
    · rw [if_pos hfull]
      have hs : 0 < s := by
        simp only [List.length_append, List.length_cons, List.length_nil] at hfull
        omega
      have hrec := batchLoop_flatten (s := s) xs [] (by simpa using hs)
      simp [hrec]
    · rw [if_neg hfull]
      have hlt : (b ++ [x]).length < s := by
        simp only [List.length_append, List.length_cons, List.length_nil] at *
        omega
      have hrec := batchLoop_flatten (s := s) xs (b ++ [x]) hlt
      simp [hrec]

theorem chunkLens_zero {s : Nat} (hs : 0 < s) : chunkLens 0 s = [] := by
  simp [chunkLens, Nat.div_eq_of_lt hs, Nat.mod_eq_of_lt hs]

theorem chunkLens_lt {L s : Nat} (h0 : 0 < L) (h : L < s) : chunkLens L s = [L] := by
  have hne : L % s ≠ 0 := by
    rw [Nat.mod_eq_of_lt h]
    omega
  simp [chunkLens, Nat.div_eq_of_lt h, Nat.mod_eq_of_lt h, hne]
  omega

theorem chunkLens_add {m s : Nat} (hs : 0 < s) : chunkLens (s + m) s = s :: chunkLens m s := by
  have hdiv : (s + m) / s = m / s + 1 := by
    rw [Nat.add_comm]
    exact Nat.add_div_right m hs
  have hmod : (s + m) % s = m % s := Nat.add_mod_left s m
  simp [chunkLens, hdiv, hmod, List.replicate_succ]

theorem batchLoop_lengths {s : Nat} :
    ∀ (xs : List (List Char)) (b : List (List Char)), b.length < s →
      (batchLoop s xs b).map List.length = chunkLens (b.length + xs.length) s
  | [], b, hb => by
    rw [batchLoop]
    by_cases hbe : b.isEmpty
    · have hbnil : b = [] := List.isEmpty_iff.mp hbe
      subst hbnil
      have hs : 0 < s := by simpa using hb
      simp [chunkLens_zero hs]
    · have hne : b ≠ [] := fun h => by simp [h] at hbe
      have hpos : 0 < b.length := List.length_pos.mpr hne
      simp [hbe, chunkLens_lt hpos hb]
  | x :: xs, b, hb => by
    rw [batchLoop]
    by_cases hfull : (b ++ [x]).length = s
    · rw [if_pos hfull]
      have hs : 0 < s := by
        simp only [List.length_append, List.length_cons, List.length_nil] at hfull
        omega
      have hsum : b.length + (x :: xs).length = s + xs.length := by
        simp only [List.length_append, List.length_cons, List.length_nil] at *
        omega
      rw [hsum, chunkLens_add hs]
      have hrec := batchLoop_lengths (s := s) xs [] (by simpa using hs)
      simp only [List.length_nil, Nat.zero_add] at hrec
      simp only [List.map_cons, hrec, hfull]
    · rw [if_neg hfull]
      have hlt : (b ++ [x]).length < s := by
        simp only [List.length_append, List.length_cons, List.length_nil] at *
        omega
      rw [batchLoop_lengths (s := s) xs (b ++ [x]) hlt]
      have harg : (b ++ [x]).length + xs.length = b.length + (x :: xs).length := by
        simp only [List.length_append, List.length_cons, List.length_nil]
        omega
      rw [harg]

theorem generate_for_council_length (c : List Char) :
    (generate_for_council c).length = 999999 := by
  simp [generate_for_council, student_number_min, student_number_max]

theorem flatten_map_flatten {α β : Type} (l : List α) (F : α → List (List β)) :
    ((l.map F).flatten).flatten = (l.map (fun c => (F c).flatten)).flatten := by
  induction l with
  | nil => rfl
  | cons a t ih => simp [ih]

theorem generate_batches_flatten {s : Nat} (hs : 1 ≤ s) :
    (generate_batches s).flatten = generate_all := by
  rw [generate_batches, flatten_map_flatten, generate_all]
  have hfun : (fun c => (batchLoop s (generate_for_council c) []).flatten)
      = generate_for_council := by
    funext c
    rw [batchLoop_flatten (s := s) (generate_for_council c) [] (by simpa using hs)]
    simp
  rw [hfun]

theorem generate_batches_lengths {s : Nat} (hs : 1 ≤ s) :
    (generate_batches s).map List.length
      = (council_codes.map (fun _ => chunkLens 999999 s)).flatten := by
  rw [generate_batches, List.map_flatten, List.map_map]
  have hfun : (List.map List.length ∘ fun c => batchLoop s (generate_for_council c) [])
      = fun _ => chunkLens 999999 s := by
    funext c
    simp only [Function.comp_apply]
    rw [batchLoop_lengths (s := s) (generate_for_council c) [] (by simpa using hs)]
    simp [generate_for_council_length]
  rw [hfun]

/-! ## Claim theorems: batching -/

set_option maxRecDepth 8000 in
/-- Counterexample to claim C5: with batch size 500000, the batch at index 1
(not the last — there are 130 batches) has length 499999, because
`generate_batches` flushes its running batch at the end of every council, not
only at the end of the whole enumeration. -/
theorem claim_C5_counterexample :
    ((generate_batches 500000).map List.length)[1]? = some 499999 ∧
    (generate_batches 500000).length = 130 := by
  have hmap := generate_batches_lengths (s := 500000) (by norm_num)
  have hconst : council_codes.map (fun _ => chunkLens 999999 500000)
      = List.replicate 65 ([500000, 499999] : List Nat) := by
    decide
  constructor
  · rw [hmap, hconst]
    decide
  · have hlen : (generate_batches 500000).length
        = ((generate_batches 500000).map List.length).length :=
      (List.length_map _ _).symm
    rw [hlen, hmap, hconst]
    decide

/-- Claim C5 as amended: for every positive batch size, the concatenation of
all batches equals the full region-major enumeration in order, and the batch
lengths are, council by council, `⌊count / size⌋` full batches followed by one
short remainder batch when the council's identifier count does not divide
evenly — so a short batch can occur at the end of every council, not only at
the end of the whole enumeration. -/
theorem claim_C5_amended (batch_size : Nat) (hs : 1 ≤ batch_size) :
    (generate_batches batch_size).flatten = generate_all ∧
    (generate_batches batch_size).map List.length =
      (council_codes.map
        (fun c => chunkLens (generate_for_council c).length batch_size)).flatten := by
  refine ⟨generate_batches_flatten hs, ?_⟩
  rw [generate_batches_lengths hs]
  have hfun : (fun c => chunkLens (generate_for_council c).length batch_size)
      = fun _ => chunkLens 999999 batch_size := by
    funext c
    rw [generate_for_council_length]
  rw [hfun]

/-- Witness for the amended C5 at batch size 1000 (the configured default). -/
theorem claim_C5_witness :
    (generate_batches config_batch_size).flatten = generate_all ∧
    (generate_batches config_batch_size).map List.length =
      (council_codes.map
        (fun c => chunkLens (generate_for_council c).length config_batch_size)).flatten :=
  claim_C5_amended config_batch_size (by decide)

/-! ## Claim theorems: skip ledger queries -/

/-- Claim C4: for every well-formed identifier (configured council code,
in-bounds sequence), `should_skip` returns a boolean (raises nothing), and
that boolean is true exactly when the sequence strictly exceeds the council's
recorded limit, or falls inside some recorded skip range for the council
(closed interval), or the identifier is in the invalid set. -/
theorem claim_C4 (st : SkipState) (c : List Char) (n : Nat)
    (hc : c ∈ council_codes) (hmin : student_number_min ≤ n)
    (hmax : n ≤ student_number_max) :
    ∃ b : Bool, should_skip st (generate_single c n) = some b ∧
      (b = true ↔
        ((∃ lim : Int, st.council_limits.lookup c = some lim ∧ lim < (n : Int)) ∨
         (∃ r ∈ getD st.skip_ranges c [],
            r.start ≤ (n : Int) ∧ (n : Int) ≤ r.«end») ∨
         generate_single c n ∈ st.invalid_patterns)) := by
  have hc2 : c.length = 2 := council_codes_length c hc
  rw [should_skip]
  simp only [generate_single_take n hc2, generate_single_drop n hc2, pyInt_pad6,
    Option.map_some']
  refine ⟨_, rfl, ?_⟩
  cases hl : st.council_limits.lookup c with
  | none =>
    simp [hl, List.any_eq_true, List.contains, List.elem_iff]
  | some lim =>
    simp [hl, List.any_eq_true, List.contains, List.elem_iff]

/-- Witness for C4: on the ledger `stRange01` (a skip range `[1, 1005]` for
council 01) and the identifier built from `("01", 5)`. -/
theorem claim_C4_witness :
    ∃ b : Bool, should_skip stRange01 (generate_single code01 5) = some b ∧
      (b = true ↔
        ((∃ lim : Int, stRange01.council_limits.lookup code01 = some lim ∧
            lim < ((5 : Nat) : Int)) ∨
         (∃ r ∈ getD stRange01.skip_ranges code01 [],
            r.start ≤ ((5 : Nat) : Int) ∧ ((5 : Nat) : Int) ≤ r.«end») ∨
         generate_single code01 5 ∈ stRange01.invalid_patterns)) :=
  claim_C4 stRange01 code01 5 (by decide) (by decide) (by decide)

/-! ## Lemmas on the dict model -/

theorem lookup_setK_self {α : Type} (m : List (List Char × α)) (k : List Char) (v : α) :
    (setK m k v).lookup k = some v := by
  induction m with
  | nil => simp [setK, List.lookup]
  | cons p rest ih =>
    by_cases h : p.1 = k
    · simp [setK, h, List.lookup]
    · have hne : (k == p.1) = false := by
        simp only [beq_eq_false_iff_ne, ne_eq]
        exact fun he => h he.symm
      simp [setK, h, List.lookup, hne, ih]

theorem lookup_setK_ne {α : Type} (m : List (List Char × α)) (k k' : List Char) (v : α)
    (hne : k' ≠ k) : (setK m k v).lookup k' = m.lookup k' := by
  have hkk : (k' == k) = false := by
    simp only [beq_eq_false_iff_ne, ne_eq]
    exact hne
  induction m with
  | nil => simp [setK, List.lookup, hkk]
  | cons p rest ih =>
    by_cases h : p.1 = k
    · have hkp : (k' == p.1) = false := by
        simp only [beq_eq_false_iff_ne, ne_eq]
        exact fun he => hne (he.trans h)
      simp [setK, h, List.lookup, hkk, hkp]
    · by_cases h2 : k' = p.1
      · simp [setK, h, List.lookup, h2]
      · have hkp : (k' == p.1) = false := by
          simp only [beq_eq_false_iff_ne, ne_eq]
          exact h2
        simp [setK, h, List.lookup, hkp, ih]

theorem getD_setK_self {α : Type} (m : List (List Char × α)) (k : List Char) (v d : α) :
    getD (setK m k v) k d = v := by
  rw [getD, lookup_setK_self]

theorem setK_setK {α : Type} (m : List (List Char × α)) (k : List Char) (a b : α) :
    setK (setK m k a) k b = setK m k b := by
  induction m with
  | nil => simp [setK]
  | cons p rest ih =>
    by_cases h : p.1 = k
    · simp [setK, h]
    · simp [setK, h, ih]

theorem contains_insertSet_self (s : List (List Char)) (x : List Char) :
    (insertSet s x).contains x = true := by
  rw [insertSet]
  by_cases h : s.contains x
  · rw [if_pos h]
    exact h
  · rw [if_neg h]
    simp [List.contains, List.elem_iff]

theorem insertSet_idem (s : List (List Char)) (x : List Char) :
    insertSet (insertSet s x) x = insertSet s x := by
  rw [insertSet, if_pos (contains_insertSet_self s x)]

theorem getD_of_lookup_none {α : Type} {m : List (List Char × α)} {k : List Char} {d : α}
    (h : m.lookup k = none) : getD m k d = d := by
  rw [getD, h]

theorem getD_of_lookup_some {α : Type} {m : List (List Char × α)} {k : List Char} {v : α}
    {d : α} (h : m.lookup k = some v) : getD m k d = v := by
  rw [getD, h]

/-! ## Lemmas on skip-range promotion -/

/-- The net effect of `add_skip_range` on the in-memory map: the new range,
stamped with the instance's file ctime, is appended to the council's list. -/
theorem add_skip_range_ranges (st : SkipState) (c : List Char) (s e : Int)
    (r : List Char) (ioOk : Bool) :
    (add_skip_range st c s e r ioOk).1.skip_ranges
      = setK st.skip_ranges c
          (getD st.skip_ranges c [] ++ [⟨s, e, r, st.file_ctime⟩]) := by
  rw [add_skip_range, save_skip_ranges]
  cases hn : st.skip_ranges.lookup c with
  | none =>
    have h1 : getD st.skip_ranges c ([] : List SkipRange) = [] := getD_of_lookup_none hn
    cases ioOk <;>
      simp [hn, h1, getD_setK_self, setK_setK]
  | some l =>
    cases ioOk <;> simp [hn]

/-- `add_skip_range` leaves every other ledger component untouched. -/
theorem add_skip_range_fields (st : SkipState) (c : List Char) (s e : Int)
    (r : List Char) (ioOk : Bool) :
    (add_skip_range st c s e r ioOk).1.council_limits = st.council_limits ∧
    (add_skip_range st c s e r ioOk).1.invalid_patterns = st.invalid_patterns ∧
    (add_skip_range st c s e r ioOk).1.consecutive_failures = st.consecutive_failures ∧
    (add_skip_range st c s e r ioOk).1.failure_threshold = st.failure_threshold ∧
    (add_skip_range st c s e r ioOk).1.file_ctime = st.file_ctime ∧
    (add_skip_range st c s e r ioOk).1.disk_council_limits = st.disk_council_limits ∧
    (add_skip_range st c s e r ioOk).1.disk_invalid_patterns = st.disk_invalid_patterns := by
  rw [add_skip_range, save_skip_ranges]
  cases hn : st.skip_ranges.lookup c with
  | none => cases ioOk <;> simp [hn]
  | some l => cases ioOk <;> simp [hn]

/-- With a successful write, `add_skip_range` raises nothing and the disk
image ends identical to the in-memory map. -/
theorem add_skip_range_io_true (st : SkipState) (c : List Char) (s e : Int)
    (r : List Char) :
    (add_skip_range st c s e r true).2 = none ∧
    (add_skip_range st c s e r true).1.disk_skip_ranges
      = (add_skip_range st c s e r true).1.skip_ranges := by
  rw [add_skip_range, save_skip_ranges]
  cases hn : st.skip_ranges.lookup c with
  | none => simp [hn]
  | some l => simp [hn]

/-- With a failing write, `add_skip_range` raises `OSError` and the disk
image stays what it was. -/
theorem add_skip_range_io_false (st : SkipState) (c : List Char) (s e : Int)
    (r : List Char) :
    (add_skip_range st c s e r false).2 = some PyExn.osError ∧
    (add_skip_range st c s e r false).1.disk_skip_ranges = st.disk_skip_ranges := by
  rw [add_skip_range, save_skip_ranges]
  cases hn : st.skip_ranges.lookup c with
  | none => simp [hn]
  | some l => simp [hn]

/-- `record_failure` on a well-formed generated identifier, with the council
code and sequence number resolved. -/
theorem record_failure_generate (st : SkipState) (c : List Char) (n : Nat)
    (etype : List Char) (ioOk : Bool) (hc2 : c.length = 2) :
    record_failure st (generate_single c n) etype ioOk =
      (let cnt := getD st.consecutive_failures (mkKey c (n : Int)) 0 + 1
       let st2 := { st with
         consecutive_failures := setK st.consecutive_failures (mkKey c (n : Int)) cnt,
         invalid_patterns := insertSet st.invalid_patterns (generate_single c n) }
       if cnt ≥ st.failure_threshold then
         add_skip_range st2 c (n : Int) ((n : Int) + 1000) strConsecutiveFailures ioOk
       else (st2, none)) := by
  rw [record_failure]
  simp only [generate_single_take n hc2, generate_single_drop n hc2, pyInt_pad6]

/-- The first 99 `record_failure` calls on a fresh (council, sequence) key
only grow the counter and the invalid set: no promotion happens below the
threshold of 100. -/
theorem recordFailureN_below (st : SkipState) (c : List Char) (n : Nat)
    (hc2 : c.length = 2) (hthr : st.failure_threshold = 100)
    (hcnt0 : getD st.consecutive_failures (mkKey c (n : Int)) 0 = 0) :
    ∀ k : Nat, 1 ≤ k → k ≤ 99 →
      recordFailureN (generate_single c n) k st =
        { st with
          consecutive_failures := setK st.consecutive_failures (mkKey c (n : Int)) k,
          invalid_patterns := insertSet st.invalid_patterns (generate_single c n) } := by
  intro k
  induction k with
  | zero => omega
  | succ m ihm =>
    intro _ h99
    by_cases hm : m = 0
    · subst hm
      rw [recordFailureN, Function.iterate_succ_apply', Function.iterate_zero_apply]
      rw [record_failure_generate st c n strNotFound true hc2]
      simp only [hcnt0, hthr, ge_iff_le]
      rw [if_neg (by omega)]
    · have hIH := ihm (by omega) (by omega)
      rw [recordFailureN, Function.iterate_succ_apply', ← recordFailureN, hIH]
      rw [record_failure_generate _ c n strNotFound true hc2]
      simp only [getD_setK_self, hthr, ge_iff_le]
      rw [if_neg (by omega)]
      simp [setK_setK, insertSet_idem]

/-! ## Claim theorems: consecutive-failure promotion -/

set_option maxRecDepth 8000 in
/-- Counterexample to claim C2: after 100 `record_failure` calls for
`("01", 5)` the recorded range is `{start: 5, end: 1005}` — it starts AT the
failing sequence number (and `should_skip` confirms sequence 5 itself is
covered), not at the next one, so it does not cover "exactly the next 1000
sequence numbers after the failing one". -/
theorem claim_C2_counterexample :
    (getD (recordFailureN reg01_5 100 stEmpty).skip_ranges code01 []).map
        (fun r => (r.start, r.«end»)) = [((5 : Int), 1005)] ∧
    should_skip (recordFailureN reg01_5 100 stEmpty) reg01_5 = some true := by
  constructor
  · decide
  · decide

set_option maxRecDepth 8000 in
/-- Claim C2 as amended: for every (council, sequence) key whose counter is
fresh, the 100th consecutive `record_failure` call (threshold default 100)
appends a new skip range for that council tagged `consecutive_failures`
covering the closed interval from the failing sequence number to the failing
sequence number plus 1000 — the failing number itself and the next 1000 —
and the skip-range file is written as part of that call. -/
theorem claim_C2_amended (st : SkipState) (c : List Char) (n : Nat)
    (hc2 : c.length = 2) (hthr : st.failure_threshold = 100)
    (hcnt0 : getD st.consecutive_failures (mkKey c (n : Int)) 0 = 0) :
    getD (recordFailureN (generate_single c n) 100 st).skip_ranges c []
      = getD st.skip_ranges c []
        ++ [⟨(n : Int), (n : Int) + 1000, strConsecutiveFailures, st.file_ctime⟩] ∧
    (recordFailureN (generate_single c n) 100 st).disk_skip_ranges
      = (recordFailureN (generate_single c n) 100 st).skip_ranges := by
  have h99 := recordFailureN_below st c n hc2 hthr hcnt0 99 (by omega) (by omega)
  have hstep : recordFailureN (generate_single c n) 100 st
      = (record_failure (recordFailureN (generate_single c n) 99 st)
          (generate_single c n) strNotFound true).1 := by
    rw [show (100 : Nat) = 99 + 1 from rfl, recordFailureN, recordFailureN,
      Function.iterate_succ_apply']
  rw [hstep, h99]
  rw [record_failure_generate _ c n strNotFound true hc2]
  simp only [getD_setK_self, hthr, ge_iff_le]
  rw [if_pos (by omega)]
  constructor
  · rw [add_skip_range_ranges]
    simp [getD_setK_self]
  · exact (add_skip_range_io_true _ c (n : Int) ((n : Int) + 1000) strConsecutiveFailures).2

/-- Counterexample to claim C8: with the counter one short of the threshold
and the skip-range file write failing, `record_failure` does not return
normally — the `OSError` propagates to its caller (there is no `try/except`
anywhere in `record_failure`, `add_skip_range` or `_save_skip_ranges`). -/
theorem claim_C8_counterexample :
    (record_failure st99 reg01_5 strNotFound false).2 = some PyExn.osError := by
  decide

/-- Claim C8 as amended: a persistence failure during `record_failure`'s
promotion path is raised to the caller, not swallowed; the in-memory ledger
does already hold the newly promoted range (the append precedes the write),
the disk image is unchanged, and a later successful `save_all` persists the
range. -/
theorem claim_C8_amended (st : SkipState) (c : List Char) (n : Nat)
    (hc2 : c.length = 2)
    (hthr : getD st.consecutive_failures (mkKey c (n : Int)) 0 + 1
      ≥ st.failure_threshold) :
    (record_failure st (generate_single c n) strNotFound false).2
      = some PyExn.osError ∧
    getD (record_failure st (generate_single c n) strNotFound false).1.skip_ranges c []
      = getD st.skip_ranges c []
        ++ [⟨(n : Int), (n : Int) + 1000, strConsecutiveFailures, st.file_ctime⟩] ∧
    (record_failure st (generate_single c n) strNotFound false).1.disk_skip_ranges
      = st.disk_skip_ranges ∧
    (save_all (record_failure st (generate_single c n) strNotFound false).1
        true true true).1.disk_skip_ranges
      = (record_failure st (generate_single c n) strNotFound false).1.skip_ranges := by
  rw [record_failure_generate st c n strNotFound false hc2]
  simp only [ge_iff_le]
  rw [if_pos hthr]
  refine ⟨(add_skip_range_io_false _ _ _ _ _).1, ?_, (add_skip_range_io_false _ _ _ _ _).2, ?_⟩
  · rw [add_skip_range_ranges]
    simp [getD_setK_self]
  · rw [save_all]
    simp [save_skip_ranges, save_council_limits, save_invalid_patterns]

/-- Witness for the amended C8: the ledger `st99` (counter at 99 for
`("01", 5)`) with a failing write. -/
theorem claim_C8_witness :
    (record_failure st99 (generate_single code01 5) strNotFound false).2
      = some PyExn.osError ∧
    getD (record_failure st99 (generate_single code01 5) strNotFound false).1.skip_ranges
        code01 []
      = getD st99.skip_ranges code01 []
        ++ [⟨((5 : Nat) : Int), ((5 : Nat) : Int) + 1000, strConsecutiveFailures,
             st99.file_ctime⟩] ∧
    (record_failure st99 (generate_single code01 5) strNotFound false).1.disk_skip_ranges
      = st99.disk_skip_ranges ∧
    (save_all (record_failure st99 (generate_single code01 5) strNotFound false).1
        true true true).1.disk_skip_ranges
      = (record_failure st99 (generate_single code01 5) strNotFound false).1.skip_ranges :=
  claim_C8_amended st99 code01 5 (by decide) (by decide)

/-- Witness for the amended C2: 100 failures for `("01", 5)` on a fresh
ledger produce the persisted range `[5, 1005]`. -/
theorem claim_C2_witness :
    getD (recordFailureN (generate_single code01 5) 100 stEmpty).skip_ranges code01 []
      = getD stEmpty.skip_ranges code01 []
        ++ [⟨((5 : Nat) : Int), ((5 : Nat) : Int) + 1000, strConsecutiveFailures,
             stEmpty.file_ctime⟩] ∧
    (recordFailureN (generate_single code01 5) 100 stEmpty).disk_skip_ranges
      = (recordFailureN (generate_single code01 5) 100 stEmpty).skip_ranges :=
  claim_C2_amended stEmpty code01 5 (by decide) (by decide) (by decide)

/-! ## Claim theorems: council limits -/

/-- Claim C6: when a limit is recorded for the council, `set_council_limit`
with a value greater than or equal to it returns the state completely
unchanged (in particular nothing is written to disk), while a strictly
smaller value replaces the recorded limit and, when the write succeeds,
persists the updated map and raises nothing. -/
theorem claim_C6 (st : SkipState) (c : List Char) (v : Int) (ioOk : Bool) :
    (∀ cur : Int, st.council_limits.lookup c = some cur → cur ≤ v →
      set_council_limit st c v ioOk = (st, none)) ∧
    (∀ cur : Int, st.council_limits.lookup c = some cur → v < cur →
      (set_council_limit st c v ioOk).1.council_limits = setK st.council_limits c v ∧
      getD (set_council_limit st c v ioOk).1.council_limits c 0 = v ∧
      (ioOk = true →
        (set_council_limit st c v ioOk).1.disk_council_limits = setK st.council_limits c v ∧
        (set_council_limit st c v ioOk).2 = none)) := by
  constructor
  · intro cur hcur hle
    simp only [set_council_limit, hcur]
    rw [if_neg (by omega)]
  · intro cur hcur hlt
    simp only [set_council_limit, hcur]
    rw [if_pos hlt]
    cases ioOk with
    | true =>
      refine ⟨rfl, getD_setK_self _ _ _ _, fun _ => ⟨rfl, rfl⟩⟩
    | false =>
      refine ⟨rfl, getD_setK_self _ _ _ _, fun h => by simp at h⟩

/-- Witness for C6: the spec's own scenario — after setting council 01's
limit to 500, a call with 800 leaves the whole ledger untouched, and a call
with 200 lowers the limit to 200 and persists it. -/
theorem claim_C6_witness :
    stLimit500.council_limits.lookup code01 = some 500 ∧
    (500 : Int) ≤ 800 ∧ (200 : Int) < 500 ∧
    set_council_limit stLimit500 code01 800 true = (stLimit500, none) ∧
    getD (set_council_limit stLimit500 code01 200 true).1.council_limits code01 0 = 200 ∧
    (set_council_limit stLimit500 code01 200 true).1.disk_council_limits =
      setK stLimit500.council_limits code01 200 :=
  ⟨by decide, by decide, by decide,
   (claim_C6 stLimit500 code01 800 true).1 500 (by decide) (by decide),
   ((claim_C6 stLimit500 code01 200 true).2 500 (by decide) (by decide)).2.1,
   (((claim_C6 stLimit500 code01 200 true).2 500 (by decide) (by decide)).2.2 rfl).1⟩

/-! ## Claim theorems: single-probe orchestrator -/

/-- Evaluation of `main.py`'s loop at C1's failing input: the cursor of
`msSkip` points at `"01000005"`, which the ledger marks should-skip
(`should_skip` true, `crawl_registration_number` returns the Python literal
`False` without touching the ledger), yet the loop body counts it as a
failure: both `consecutive_failures` and `total_failed` are incremented,
while `total_skipped` stays 0 and the ledger is untouched. -/
theorem claim_C1_divergence :
    should_skip msSkip.skip (generate_single code01 5) = some true ∧
    crawl_registration_number msSkip.skip (generate_single code01 5)
        (fun _ => FetchOutcome.absent) true
      = (msSkip.skip, some CrawlResult.falseV) ∧
    (mainStep code01 (fun _ => FetchOutcome.absent) true msSkip).2 = none ∧
    (mainStep code01 (fun _ => FetchOutcome.absent) true msSkip).1.consecutive_failures
      = msSkip.consecutive_failures + 1 ∧
    (mainStep code01 (fun _ => FetchOutcome.absent) true msSkip).1.total_failed
      = msSkip.total_failed + 1 ∧
    (mainStep code01 (fun _ => FetchOutcome.absent) true msSkip).1.total_skipped
      = msSkip.total_skipped ∧
    (mainStep code01 (fun _ => FetchOutcome.absent) true msSkip).1.skip
      = msSkip.skip := by
  decide

/-- One loop iteration of `main.main` never touches `total_skipped` (the
variable is initialised and reported but never incremented). -/
theorem mainStep_skipped (c : List Char) (fetch : Nat → FetchOutcome) (ioOk : Bool)
    (ms : MainState) : (mainStep c fetch ioOk ms).1.total_skipped = ms.total_skipped := by
  rw [mainStep]
  rcases crawl_registration_number ms.skip (c ++ pad6 ms.student_number) fetch ioOk
    with ⟨st', r⟩
  cases r with
  | none => rfl
  | some result =>
    simp only []
    by_cases ht : isTruthy result = true
    · rw [if_pos ht]
      split <;> rfl
    · rw [if_neg ht]

theorem runCouncil_skipped (c : List Char) (fetch : Nat → FetchOutcome) (ioOk : Bool) :
    ∀ (fuel : Nat) (ms : MainState),
      (runCouncil c fetch ioOk fuel ms).1.total_skipped = ms.total_skipped := by
  intro fuel
  induction fuel with
  | zero => intro ms; rfl
  | succ f ih =>
    intro ms
    rw [runCouncil]
    by_cases h : ms.consecutive_failures < 10
    · rw [if_pos h]
      rcases hcr : mainStep c fetch ioOk ms with ⟨ms', e⟩
      have hms' : ms'.total_skipped = ms.total_skipped := by
        have hstep := mainStep_skipped c fetch ioOk ms
        rw [hcr] at hstep
        exact hstep
      cases e with
      | none => rw [ih ms', hms']
      | some ex => exact hms'
    · rw [if_neg h]

theorem runCouncils_skipped (fetch : List Char → Nat → FetchOutcome) (ioOk : Bool)
    (fuel : Nat) :
    ∀ (cs : List (List Char)) (ms : MainState),
      (runCouncils fetch ioOk fuel cs ms).1.total_skipped = ms.total_skipped := by
  intro cs
  induction cs with
  | nil => intro ms; rfl
  | cons c rest ih =>
    intro ms
    rw [runCouncils]
    rcases hrc : runCouncil c (fetch c) ioOk fuel
        { ms with consecutive_failures := 0, student_number := 1, council_successful := 0 }
      with ⟨ms', e⟩
    have hms' : ms'.total_skipped = ms.total_skipped := by
      have hrun := runCouncil_skipped c (fetch c) ioOk fuel
        { ms with consecutive_failures := 0, student_number := 1, council_successful := 0 }
      rw [hrc] at hrun
      exact hrun
    cases e with
    | none =>
      simp only []
      rw [ih]
      exact hms'
    | some ex => exact hms'

theorem overall_success_rate_skipped_zero (s p : Nat) :
    overall_success_rate s p 0 = (s : ℚ) / max 1 (p : ℚ) * 100 := by
  rw [overall_success_rate]
  push_cast
  norm_num

theorem summary_success_rate_eq (s p : Nat) :
    summary_success_rate s p = (s : ℚ) / max 1 (p : ℚ) * 100 := by
  rw [summary_success_rate]
  push_cast
  norm_num

/-- Claim C9: for every run of `main.main`'s council loop (any backend, any
fuel, any council list — including the empty run that processes nothing),
`total_skipped` is still 0 at the end, so the reported
`overall_success_rate` expression `successful / max(1, processed - skipped)`
equals `successful / max(1, processed)`; `ResultsSaver.save_summary` computes
`successful / max(1, processed)` directly; and a run with zero processed
reports rate 0 rather than dividing by zero. -/
theorem claim_C9 (fetch : List Char → Nat → FetchOutcome) (ioOk : Bool) (fuel : Nat)
    (cs : List (List Char)) (st0 : SkipState) :
    (runCouncils fetch ioOk fuel cs (initMainState st0)).1.total_skipped = 0 ∧
    overall_success_rate
        (runCouncils fetch ioOk fuel cs (initMainState st0)).1.total_successful
        (runCouncils fetch ioOk fuel cs (initMainState st0)).1.total_processed
        (runCouncils fetch ioOk fuel cs (initMainState st0)).1.total_skipped
      = ((runCouncils fetch ioOk fuel cs (initMainState st0)).1.total_successful : ℚ)
          / max 1 ((runCouncils fetch ioOk fuel cs (initMainState st0)).1.total_processed : ℚ)
          * 100 ∧
    (∀ s p : Nat, summary_success_rate s p = (s : ℚ) / max 1 (p : ℚ) * 100) ∧
    overall_success_rate 0 0 0 = 0 := by
  have hz : (runCouncils fetch ioOk fuel cs (initMainState st0)).1.total_skipped = 0 :=
    runCouncils_skipped fetch ioOk fuel cs (initMainState st0)
  refine ⟨hz, ?_, summary_success_rate_eq, by rw [overall_success_rate_skipped_zero]; norm_num⟩
  rw [hz, overall_success_rate_skipped_zero]

/-! ## Claim theorems: batched orchestrator -/

theorem buildBatchAux_spec (c : List Char) (cf : Nat) (hcf : cf < 1000) :
    ∀ (i sn : Nat),
      (buildBatchAux c cf i sn).1.length = i ∧ (buildBatchAux c cf i sn).2 = sn + i := by
  intro i
  induction i with
  | zero =>
    intro sn
    exact ⟨rfl, rfl⟩
  | succ m ih =>
    intro sn
    rw [buildBatchAux]
    rw [if_neg (by omega)]
    rcases hb : buildBatchAux c cf m (sn + 1) with ⟨rest, sn2⟩
    have hm := ih (sn + 1)
    rw [hb] at hm
    have h1 : rest.length = m := by simpa using hm.1
    have h2 : sn2 = sn + 1 + m := by simpa using hm.2
    simp only [List.length_cons]
    exact ⟨by rw [h1], by omega⟩

theorem filterValid_all_skip (st : SkipState) :
    ∀ l : List (List Char), (∀ reg ∈ l, should_skip st reg = some true) →
      filterValid st l = some [] := by
  intro l
  induction l with
  | nil => intro; rfl
  | cons n ns ih =>
    intro h
    rw [filterValid, h n (by simp)]
    exact ih (fun r hr => h r (by simp [hr]))

/-- An all-skipped batch is answered from the ledger alone: empty result,
ledger unchanged, zero backend invocations. -/
theorem crawl_batch_api_all_skip (st : SkipState) (regs : List (List Char))
    (fetchB : List (List Char) → List Record) (ioOk : Bool)
    (h : ∀ reg ∈ regs, should_skip st reg = some true) :
    crawl_batch_api true st regs fetchB ioOk = some (st, [], 0) := by
  rw [crawl_batch_api, if_neg (by simp), filterValid_all_skip st regs h]
  simp

/-- Claim C10: in batched mode, when the ledger marks every identifier of the
upcoming batch as should-skip, `crawl_batch_api` returns the empty list
without contacting the backend (invocation count 0, ledger unchanged), the
batch nevertheless has the full size 100, and the iteration of
`crawl_council_fast` then adds the entire batch size to both the
consecutive-failure count and the failed total — exactly the all-miss
bookkeeping — while the success total and the ledger stay unchanged. -/
theorem claim_C10 (es : EnhState) (c : List Char)
    (fetchB : List (List Char) → List Record) (ioOk : Bool)
    (hcf : es.consecutive_failures < 1000)
    (hskip : ∀ reg ∈ batchOf c es, should_skip es.skip reg = some true) :
    (batchOf c es).length = 100 ∧
    crawl_batch_api true es.skip (batchOf c es) fetchB ioOk = some (es.skip, [], 0) ∧
    ∃ es' : EnhState, enhIter c fetchB true ioOk es = some (es', true) ∧
      es'.consecutive_failures = es.consecutive_failures + 100 ∧
      es'.total_failed = es.total_failed + 100 ∧
      es'.total_processed = es.total_processed + 100 ∧
      es'.skip = es.skip ∧
      es'.total_successful = es.total_successful := by
  have hlen : (batchOf c es).length = 100 := by
    rw [batchOf]
    exact (buildBatchAux_spec c es.consecutive_failures hcf 100 es.student_number).1
  have hapi := crawl_batch_api_all_skip es.skip (batchOf c es) fetchB ioOk hskip
  refine ⟨hlen, hapi, ?_⟩
  have hbe : (batchOf c es).isEmpty = false := by
    cases hb : batchOf c es with
    | nil => rw [hb] at hlen; simp at hlen
    | cons a t => rfl
  rw [enhIter]
  simp only []
  rw [show (buildBatchAux c es.consecutive_failures 100 es.student_number).1
      = batchOf c es from rfl]
  rw [if_neg (by simp [hbe])]
  rw [hapi]
  simp only []
  refine ⟨_, rfl, ?_, ?_, ?_, ?_, ?_⟩ <;>
    · split <;> split <;> simp_all [hlen]

set_option maxRecDepth 8000 in
/-- Witness for C10: a fresh `crawl_council_fast` state over a ledger whose
council-01 limit is 0, so every identifier of the upcoming batch is
should-skip. -/
theorem claim_C10_witness :
    esLim0.consecutive_failures < 1000 ∧
    (∀ reg ∈ batchOf code01 esLim0, should_skip esLim0.skip reg = some true) ∧
    ((batchOf code01 esLim0).length = 100 ∧
     crawl_batch_api true esLim0.skip (batchOf code01 esLim0) (fun _ => []) true
       = some (esLim0.skip, [], 0) ∧
     ∃ es' : EnhState, enhIter code01 (fun _ => []) true true esLim0 = some (es', true) ∧
       es'.consecutive_failures = esLim0.consecutive_failures + 100 ∧
       es'.total_failed = esLim0.total_failed + 100 ∧
       es'.total_processed = esLim0.total_processed + 100 ∧
       es'.skip = esLim0.skip ∧
       es'.total_successful = esLim0.total_successful) :=
  ⟨by decide, by decide,
   claim_C10 esLim0 code01 (fun _ => []) true (by decide) (by decide)⟩

end Crawler
